import Mathlib

/-!
Verification of the `node.std` binary resource staging layer.

This file gives a shallow embedding of the parts of the repository that the
spec claims talk about: the XOR masking codec (`src/buffer` / part_003), the
binary I/O primitives (`src/fs/binary.ts`), the quota-bounded temporary
directory (`src/fs/temp.ts`) and the download orchestrator
(`DownloadService`).  JavaScript `Buffer`s are modelled as lists of natural
numbers; stateful classes become explicit state passing; fallible operations
return an error component.
-/

namespace NodeStd

/-! ### JavaScript buffer primitives -/

/-- A Node.js `Buffer`, modelled as a list of byte values. -/
abbrev Buf := List Nat

/-- JS element read `b[i]` as it behaves inside a XOR expression: an
out-of-range (or `NaN`) index yields `undefined`, which `ToInt32` coerces
to `0`. -/
def jsRead (b : Buf) (i : Nat) : Nat := b.getD i 0

/-- JS typed-array store `b[i] = v`: the value is coerced to an unsigned
8-bit integer and out-of-range stores are dropped (`List.set` is the
identity out of range). -/
def jsSet (b : Buf) (i v : Nat) : Buf := b.set i (v % 256)

theorem jsSet_length (b : Buf) (i v : Nat) : (jsSet b i v).length = b.length := by
  simp [jsSet]

theorem getD_eq_zero_of_le (b : Buf) (j : Nat) (h : b.length ≤ j) : b.getD j 0 = 0 := by
  simp [List.getD_eq_getElem?_getD, List.getElem?_eq_none h]

theorem jsSet_getD (b : Buf) (i v j : Nat) :
    (jsSet b i v).getD j 0 = if i = j ∧ j < b.length then v % 256 else b.getD j 0 := by
  induction b generalizing i j with
  | nil => simp [jsSet]
  | cons x rest ih =>
    cases i with
    | zero =>
      cases j with
      | zero => simp [jsSet]
      | succ j => simp [jsSet]
    | succ i =>
      cases j with
      | zero => simp [jsSet]
      | succ j =>
        have := ih i j
        simpa [jsSet, Nat.succ_lt_succ_iff] using this

/-! ### The masking codec (reference loop and exported wrappers)

Source: the buffer module (part_003 of the repository).  `_mask` writes
`source[i] ^ mask[pad ? i % mask.length : i & 3]` into `output[offset+i]`
for `i < length`; `_unmask` applies the same XOR in place.  Note `i & 3`
is `i % 4`, and for an empty key the padded index `i % 0` is `NaN` in JS,
whose read is `undefined` and XORs as `0` — the Lean translation
`jsRead key (i % key.length)` yields `0` there as well. -/

/-- Key byte selection `mask[pad ? Math.floor(i % mask.length) : i & 3]`. -/
def maskKeyByte (key : Buf) (pad : Bool) (i : Nat) : Nat :=
  if pad then jsRead key (i % key.length) else jsRead key (i % 4)

/-- The reference masking loop `_mask` from the source. -/
def _mask (source key output : Buf) (offset length : Nat) (pad : Bool) : Buf :=
  (List.range length).foldl
    (fun out i => jsSet out (offset + i) (jsRead source i ^^^ maskKeyByte key pad i)) output

/-- The reference in-place unmasking loop `_unmask` from the source
(`buffer[i] ^= mask[...]`, reading the evolving buffer). -/
def _unmask (buffer key : Buf) (pad : Bool) : Buf :=
  (List.range buffer.length).foldl
    (fun b i => jsSet b i (jsRead b i ^^^ maskKeyByte key pad i)) buffer

theorem foldl_length_invariant {α : Type} (F : Buf → α → Buf)
    (h : ∀ b a, (F b a).length = b.length) :
    ∀ (l : List α) (init : Buf), (l.foldl F init).length = init.length := by
  intro l
  induction l with
  | nil => intro init; rfl
  | cons a t ih => intro init; rw [List.foldl_cons, ih, h]

theorem _mask_length (s k o : Buf) (off len : Nat) (pad : Bool) :
    (_mask s k o off len pad).length = o.length :=
  foldl_length_invariant _ (fun b i => jsSet_length b _ _) _ o

theorem _unmask_length (b k : Buf) (pad : Bool) :
    (_unmask b k pad).length = b.length :=
  foldl_length_invariant _ (fun b i => jsSet_length b _ _) _ b

/-- Pointwise description of the reference masking loop. -/
theorem _mask_getD (s k o : Buf) (off : Nat) (pad : Bool) :
    ∀ (len j : Nat), (_mask s k o off len pad).getD j 0 =
      if off ≤ j ∧ j < off + len ∧ j < o.length
      then (jsRead s (j - off) ^^^ maskKeyByte k pad (j - off)) % 256
      else o.getD j 0 := by
  intro len
  induction len with
  | zero =>
    intro j
    simp only [_mask, List.range_zero, List.foldl_nil]
    split
    · omega
    · rfl
  | succ n ih =>
    intro j
    have hstep : _mask s k o off (n + 1) pad =
        jsSet (_mask s k o off n pad) (off + n)
          (jsRead s n ^^^ maskKeyByte k pad n) := by
      simp [_mask, List.range_succ]
    rw [hstep, jsSet_getD, _mask_length, ih j]
    by_cases hj : off + n = j ∧ j < o.length
    · have h3 : j - off = n := by omega
      rw [if_pos hj, if_pos (show off ≤ j ∧ j < off + (n + 1) ∧ j < o.length by omega), h3]
    · rw [if_neg hj]
      by_cases hin : off ≤ j ∧ j < off + n ∧ j < o.length
      · rw [if_pos hin, if_pos (show off ≤ j ∧ j < off + (n + 1) ∧ j < o.length by omega)]
      · rw [if_neg hin, if_neg (show ¬ (off ≤ j ∧ j < off + (n + 1) ∧ j < o.length) by omega)]

/-- Pointwise description of the first `m` iterations of the in-place
unmasking loop (the loop reads the buffer it is mutating, but iteration `i`
only ever reads index `i`, which earlier iterations have not touched). -/
theorem _unmask_partial (buffer k : Buf) (pad : Bool) :
    ∀ (m j : Nat),
      ((List.range m).foldl
          (fun b i => jsSet b i (jsRead b i ^^^ maskKeyByte k pad i)) buffer).getD j 0 =
        if j < m ∧ j < buffer.length
        then (buffer.getD j 0 ^^^ maskKeyByte k pad j) % 256
        else buffer.getD j 0 := by
  intro m
  induction m with
  | zero =>
    intro j
    simp only [List.range_zero, List.foldl_nil]
    split
    · omega
    · rfl
  | succ n ih =>
    intro j
    have hstep : (List.range (n + 1)).foldl
        (fun b i => jsSet b i (jsRead b i ^^^ maskKeyByte k pad i)) buffer =
        jsSet ((List.range n).foldl
            (fun b i => jsSet b i (jsRead b i ^^^ maskKeyByte k pad i)) buffer) n
          (jsRead ((List.range n).foldl
            (fun b i => jsSet b i (jsRead b i ^^^ maskKeyByte k pad i)) buffer) n ^^^
            maskKeyByte k pad n) := by
      simp [List.range_succ]
    have hlen : ((List.range n).foldl
        (fun b i => jsSet b i (jsRead b i ^^^ maskKeyByte k pad i)) buffer).length =
        buffer.length :=
      foldl_length_invariant _ (fun b i => jsSet_length b _ _) _ buffer
    have hread : jsRead ((List.range n).foldl
        (fun b i => jsSet b i (jsRead b i ^^^ maskKeyByte k pad i)) buffer) n =
        jsRead buffer n := by
      show ((List.range n).foldl _ buffer).getD n 0 = buffer.getD n 0
      rw [ih n, if_neg (by omega)]
    rw [hstep, hread, jsSet_getD, hlen, ih j]
    by_cases hj : n = j ∧ j < buffer.length
    · rw [if_pos hj, if_pos (show j < n + 1 ∧ j < buffer.length by omega)]
      rcases hj with ⟨hj1, _⟩
      rw [hj1]
      rfl
    · rw [if_neg hj]
      by_cases hin : j < n ∧ j < buffer.length
      · rw [if_pos hin, if_pos (show j < n + 1 ∧ j < buffer.length by omega)]
      · rw [if_neg hin, if_neg (show ¬ (j < n + 1 ∧ j < buffer.length) by omega)]

theorem _unmask_getD (b k : Buf) (pad : Bool) (j : Nat) :
    (_unmask b k pad).getD j 0 =
      if j < b.length
      then (b.getD j 0 ^^^ maskKeyByte k pad j) % 256
      else b.getD j 0 := by
  rw [_unmask, _unmask_partial b k pad b.length j]
  by_cases h : j < b.length
  · rw [if_pos (show j < b.length ∧ j < b.length by omega), if_pos h]
  · rw [if_neg (by omega), if_neg h]

/-! ### Exported `mask` / `unmask` wrappers

The exported wrappers normalize `options.avoidBufferUtils` to `true` when it
is not a boolean, consult the `NO_BUFFER_UTILS` environment flag, apply a
size threshold (48 bytes for `mask`, 32 for `unmask`) and only then attempt
the optional accelerated backend (`bufferutil`), falling back to the
reference loop when it cannot be loaded or executed.  The backend call site
passes `source, mask, output, offset, length` — the `pad` flag is NOT
forwarded.  `backend = none` models a backend that fails to load or
execute (the `catch` branch). -/

structure MaskOptions where
  avoidBufferUtils : Option Bool
  pad : Bool
deriving DecidableEq, Repr

/-- Type of the accelerated `bufferutil.mask` backend; note it receives no
pad flag. -/
abbrev MaskBackend := Buf → Buf → Buf → Nat → Nat → Buf

/-- Type of the accelerated `bufferutil.unmask` backend; no pad flag. -/
abbrev UnmaskBackend := Buf → Buf → Buf

/-- Exported `mask` from the source.  `env` is `process.env.NO_BUFFER_UTILS === '1'`. -/
def mask (env : Bool) (backend : Option MaskBackend) (source key output : Buf)
    (offset length : Nat) (options : Option MaskOptions) : Buf :=
  let opts := options.getD ⟨none, false⟩
  let avoid := opts.avoidBufferUtils.getD true
  if env || avoid then _mask source key output offset length opts.pad
  else if length < 48 then _mask source key output offset length opts.pad
  else
    match backend with
    | some B => B source key output offset length
    | none => _mask source key output offset length opts.pad

/-- Exported `unmask` from the source. -/
def unmask (env : Bool) (backend : Option UnmaskBackend) (buffer key : Buf)
    (options : Option MaskOptions) : Buf :=
  let opts := options.getD ⟨none, false⟩
  let avoid := opts.avoidBufferUtils.getD true
  if env || avoid then _unmask buffer key opts.pad
  else if buffer.length < 32 then _unmask buffer key opts.pad
  else
    match backend with
    | some B => B buffer key
    | none => _unmask buffer key opts.pad

theorem mask_avoid_default (env : Bool) (backend : Option MaskBackend)
    (s k o : Buf) (off len : Nat) (p : Bool) :
    mask env backend s k o off len (some ⟨none, p⟩) = _mask s k o off len p := by
  cases env <;> rfl

theorem mask_avoid_true (env : Bool) (backend : Option MaskBackend)
    (s k o : Buf) (off len : Nat) (p : Bool) :
    mask env backend s k o off len (some ⟨some true, p⟩) = _mask s k o off len p := by
  cases env <;> rfl

theorem unmask_avoid_default (env : Bool) (backend : Option UnmaskBackend)
    (b k : Buf) (p : Bool) :
    unmask env backend b k (some ⟨none, p⟩) = _unmask b k p := by
  cases env <;> rfl

/-! ### Byte bounds -/

theorem jsRead_lt_256 (b : Buf) (h : ∀ x ∈ b, x < 256) (i : Nat) : jsRead b i < 256 := by
  show b.getD i 0 < 256
  by_cases hi : i < b.length
  · rw [List.getD_eq_getElem?_getD, List.getElem?_eq_getElem hi]
    exact h _ (List.getElem_mem hi)
  · rw [getD_eq_zero_of_le b i (by omega)]
    omega

theorem maskKeyByte_lt_256 (k : Buf) (h : ∀ x ∈ k, x < 256) (pad : Bool) (i : Nat) :
    maskKeyByte k pad i < 256 := by
  unfold maskKeyByte
  split <;> exact jsRead_lt_256 k h _

theorem xor_lt_256 {x y : Nat} (hx : x < 256) (hy : y < 256) : x ^^^ y < 256 := by
  have h : (256 : Nat) = 2 ^ 8 := rfl
  rw [h] at hx hy ⊢
  exact Nat.xor_lt_two_pow hx hy

/-- Two byte lists are equal when they have the same length and agree on
`getD _ 0` below that length. -/
theorem list_eq_of_getD (l₁ : List Nat) :
    ∀ (l₂ : List Nat), l₁.length = l₂.length →
      (∀ j, j < l₂.length → l₁.getD j 0 = l₂.getD j 0) → l₁ = l₂ := by
  induction l₁ with
  | nil =>
    intro l₂ hlen h
    cases l₂ with
    | nil => rfl
    | cons y t => exact absurd hlen (by simp)
  | cons x t ih =>
    intro l₂ hlen h
    cases l₂ with
    | nil => exact absurd hlen (by simp)
    | cons y u =>
      have hx : x = y := h 0 (by simp)
      have ht : t = u := by
        refine ih u (by simpa using hlen) ?_
        intro j hj
        have := h (j + 1) (by simpa using hj)
        simpa using this
      rw [hx, ht]

/-- C4: `mask(source, key, output, offset, length, {pad})` — called with
default options, hence through the reference loop regardless of environment
or backend — sets `output[offset+i] = source[i] XOR
key[pad ? i % key.length : i & 3]` for each `i ∈ [0, length)` and writes no
other output byte (it also preserves the output length). -/
theorem mask_pointwise_spec (env : Bool) (backend : Option MaskBackend)
    (source key output : Buf) (offset length : Nat) (pad : Bool)
    (hs : ∀ x ∈ source, x < 256) (hk : ∀ x ∈ key, x < 256)
    (hfit : offset + length ≤ output.length) :
    (mask env backend source key output offset length (some ⟨none, pad⟩)).length
        = output.length ∧
    (∀ i, i < length →
      (mask env backend source key output offset length (some ⟨none, pad⟩)).getD
          (offset + i) 0 =
        source.getD i 0 ^^^
          (if pad then key.getD (i % key.length) 0 else key.getD (i % 4) 0)) ∧
    (∀ j, j < offset ∨ offset + length ≤ j →
      (mask env backend source key output offset length (some ⟨none, pad⟩)).getD j 0 =
        output.getD j 0) := by
  refine ⟨?_, ?_, ?_⟩
  · rw [mask_avoid_default]
    exact _mask_length source key output offset length pad
  · intro i hi
    rw [mask_avoid_default, _mask_getD,
      if_pos (show offset ≤ offset + i ∧ offset + i < offset + length ∧
        offset + i < output.length by omega)]
    have hsub : offset + i - offset = i := by omega
    rw [hsub, Nat.mod_eq_of_lt
      (xor_lt_256 (jsRead_lt_256 source hs i) (maskKeyByte_lt_256 key hk pad i))]
    cases pad <;> rfl
  · intro j hj
    rw [mask_avoid_default, _mask_getD, if_neg (by omega)]

/-- Witness for C4: the spec scenario
`mask(Buffer.from([1,2,3,4,5]), Buffer.from([9,9]), out, 0, 5, {pad:true})`
yields `[1^9, 2^9, 3^9, 4^9, 5^9] = [8,11,10,13,12]`. -/
theorem mask_pointwise_spec_witness :
    mask false none [1, 2, 3, 4, 5] [9, 9] (List.replicate 5 0) 0 5
        (some ⟨none, true⟩) = [8, 11, 10, 13, 12] ∧
    ((mask false none [1, 2, 3, 4, 5] [9, 9] (List.replicate 5 0) 0 5
        (some ⟨none, true⟩)).length = (List.replicate 5 0 : Buf).length ∧
    (∀ i, i < 5 →
      (mask false none [1, 2, 3, 4, 5] [9, 9] (List.replicate 5 0) 0 5
          (some ⟨none, true⟩)).getD (0 + i) 0 =
        ([1, 2, 3, 4, 5] : Buf).getD i 0 ^^^
          (if true then ([9, 9] : Buf).getD (i % ([9, 9] : Buf).length) 0
           else ([9, 9] : Buf).getD (i % 4) 0)) ∧
    (∀ j, j < 0 ∨ 0 + 5 ≤ j →
      (mask false none [1, 2, 3, 4, 5] [9, 9] (List.replicate 5 0) 0 5
          (some ⟨none, true⟩)).getD j 0 = (List.replicate 5 0 : Buf).getD j 0)) :=
  ⟨by decide,
   mask_pointwise_spec false none [1, 2, 3, 4, 5] [9, 9] (List.replicate 5 0) 0 5 true
     (by decide) (by decide) (by decide)⟩

/-- C5: padded-mode round trip.  Masking a buffer `b` with key `k`
(`pad = true`, default `avoidBufferUtils`) into a fresh zeroed output and
then unmasking the result with the same key returns `b` unchanged, for any
non-empty byte key (any length, including keys longer than 4 bytes) and
irrespective of environment flag or accelerated backend. -/
theorem mask_unmask_roundtrip (envm envu : Bool)
    (Bm : Option MaskBackend) (Bu : Option UnmaskBackend) (b k : Buf)
    (hb : ∀ x ∈ b, x < 256) (hk : ∀ x ∈ k, x < 256) (hne : k ≠ []) :
    unmask envu Bu
      (mask envm Bm b k (List.replicate b.length 0) 0 b.length (some ⟨none, true⟩))
      k (some ⟨none, true⟩) = b := by
  rw [mask_avoid_default, unmask_avoid_default]
  have hrep : (List.replicate b.length (0 : Nat)).length = b.length := by simp
  have hmlen : (_mask b k (List.replicate b.length 0) 0 b.length true).length
      = b.length := by
    rw [_mask_length, hrep]
  have hm : ∀ j, j < b.length →
      (_mask b k (List.replicate b.length 0) 0 b.length true).getD j 0 =
        b.getD j 0 ^^^ maskKeyByte k true j := by
    intro j hj
    rw [_mask_getD, if_pos (show 0 ≤ j ∧ j < 0 + b.length ∧
      j < (List.replicate b.length (0 : Nat)).length by omega)]
    have hsub : j - 0 = j := by omega
    rw [hsub, Nat.mod_eq_of_lt
      (xor_lt_256 (jsRead_lt_256 b hb j) (maskKeyByte_lt_256 k hk true j))]
    rfl
  refine list_eq_of_getD _ b ?_ ?_
  · rw [_unmask_length, hmlen]
  · intro j hj
    rw [_unmask_getD, hmlen, if_pos hj, hm j hj, Nat.xor_cancel_right]
    have : b.getD j 0 < 256 := jsRead_lt_256 b hb j
    exact Nat.mod_eq_of_lt this

/-- Witness for C5: round trip of `[1,2,3,4,5]` under the 6-byte key
`[9,9,7,5,3,1]` (longer than 4 bytes). -/
theorem mask_unmask_roundtrip_witness :
    unmask false none
      (mask false none [1, 2, 3, 4, 5] [9, 9, 7, 5, 3, 1]
        (List.replicate ([1, 2, 3, 4, 5] : Buf).length 0) 0
        ([1, 2, 3, 4, 5] : Buf).length (some ⟨none, true⟩))
      [9, 9, 7, 5, 3, 1] (some ⟨none, true⟩) = [1, 2, 3, 4, 5] :=
  mask_unmask_roundtrip false false none none [1, 2, 3, 4, 5] [9, 9, 7, 5, 3, 1]
    (by decide) (by decide) (by decide)

/-! ### C6: accelerated backend versus reference loop -/

/-- C6 as stated: there is a backend behaviour (the loaded `bufferutil`)
for which the accelerated path — reached when `avoidBufferUtils` is
explicitly `false`, the environment flag is unset and the buffer meets the
size threshold — produces byte-for-byte the same output as the reference
loop on every input, in both pad modes, for both `mask` and `unmask`. -/
def ClaimC6 : Prop :=
  ∃ (BM : MaskBackend) (BU : UnmaskBackend),
    (∀ (s k o : Buf) (off len : Nat) (pad : Bool),
        mask false (some BM) s k o off len (some ⟨some false, pad⟩) =
          _mask s k o off len pad) ∧
    (∀ (b k : Buf) (pad : Bool),
        unmask false (some BU) b k (some ⟨some false, pad⟩) = _unmask b k pad)

/-- Counterexample for C6: no backend can satisfy the claim.  The call site
`bufferUtil.mask(source, mask, output, offset, length)` does not forward the
`pad` flag, so on the accelerated path the output cannot depend on `pad`;
but on a concrete 48-byte input with the 5-byte key `[1,2,3,4,5]` the
reference loop produces different bytes in the two pad modes (index `4`
uses `key[4] = 5` when padded and `key[0] = 1` when unpadded). -/
theorem mask_backend_identity_refuted : ¬ ClaimC6 := by
  rintro ⟨BM, BU, hm, -⟩
  have h1 := hm (List.replicate 48 0) [1, 2, 3, 4, 5] (List.replicate 48 0) 0 48 true
  have h2 := hm (List.replicate 48 0) [1, 2, 3, 4, 5] (List.replicate 48 0) 0 48 false
  have e1 : mask false (some BM) (List.replicate 48 0) [1, 2, 3, 4, 5]
      (List.replicate 48 0) 0 48 (some ⟨some false, true⟩) =
      BM (List.replicate 48 0) [1, 2, 3, 4, 5] (List.replicate 48 0) 0 48 := rfl
  have e2 : mask false (some BM) (List.replicate 48 0) [1, 2, 3, 4, 5]
      (List.replicate 48 0) 0 48 (some ⟨some false, false⟩) =
      BM (List.replicate 48 0) [1, 2, 3, 4, 5] (List.replicate 48 0) 0 48 := rfl
  rw [e1] at h1
  rw [e2] at h2
  have hcontra : _mask (List.replicate 48 0) [1, 2, 3, 4, 5]
      (List.replicate 48 0) 0 48 true =
      _mask (List.replicate 48 0) [1, 2, 3, 4, 5] (List.replicate 48 0) 0 48 false :=
    h1.symm.trans h2
  exact absurd hcontra (by decide)

theorem maskKeyByte_of_len_four (k : Buf) (h : k.length = 4) (pad : Bool) (i : Nat) :
    maskKeyByte k pad i = jsRead k (i % 4) := by
  cases pad
  · rfl
  · show jsRead k (i % k.length) = jsRead k (i % 4)
    rw [h]

theorem _mask_pad_irrelevant_of_len_four (s k o : Buf) (off len : Nat)
    (h : k.length = 4) (pad : Bool) :
    _mask s k o off len pad = _mask s k o off len false := by
  unfold _mask
  congr 1
  funext out i
  rw [maskKeyByte_of_len_four k h pad i, maskKeyByte_of_len_four k h false i]

theorem mask_env_false_avoid_false (B : Option MaskBackend) (s k o : Buf)
    (off len : Nat) (p : Bool) :
    mask false B s k o off len (some ⟨some false, p⟩) =
      if len < 48 then _mask s k o off len p
      else
        match B with
        | some b => b s k o off len
        | none => _mask s k o off len p := rfl

theorem unmask_env_false_avoid_false (B : Option UnmaskBackend) (b k : Buf)
    (p : Bool) :
    unmask false B b k (some ⟨some false, p⟩) =
      if b.length < 32 then _unmask b k p
      else
        match B with
        | some bu => bu b k
        | none => _unmask b k p := rfl

/-- C6 amended: (1, 2) whenever the accelerated backend is not taken —
environment disable flag set, `avoidBufferUtils` defaulted or `true`,
backend failed to load/execute, or the buffer is below the size
threshold — `mask`/`unmask` silently produce exactly the reference-loop
bytes; (3, 4) a backend computing the reference 4-byte XOR agrees with the
reference loop on the accelerated path in unpadded mode; (5) in padded
mode such agreement holds when the key is exactly 4 bytes (the pad flag is
not forwarded to the backend, so for other key lengths padded outputs can
differ, cf. the counterexample). -/
theorem mask_fallback_agreement :
    (∀ (env : Bool) (B : Option MaskBackend) (s k o : Buf) (off len : Nat)
        (opts : MaskOptions),
        env = true ∨ opts.avoidBufferUtils.getD true = true ∨ B = none ∨ len < 48 →
        mask env B s k o off len (some opts) = _mask s k o off len opts.pad) ∧
    (∀ (env : Bool) (B : Option UnmaskBackend) (b k : Buf) (opts : MaskOptions),
        env = true ∨ opts.avoidBufferUtils.getD true = true ∨ B = none ∨ b.length < 32 →
        unmask env B b k (some opts) = _unmask b k opts.pad) ∧
    (∀ (B : MaskBackend),
        (∀ s k o off len, B s k o off len = _mask s k o off len false) →
        ∀ (env : Bool) (s k o : Buf) (off len : Nat) (a : Option Bool),
          mask env (some B) s k o off len (some ⟨a, false⟩) =
            _mask s k o off len false) ∧
    (∀ (B : UnmaskBackend),
        (∀ b k, B b k = _unmask b k false) →
        ∀ (env : Bool) (b k : Buf) (a : Option Bool),
          unmask env (some B) b k (some ⟨a, false⟩) = _unmask b k false) ∧
    (∀ (B : MaskBackend),
        (∀ s k o off len, B s k o off len = _mask s k o off len false) →
        ∀ (env : Bool) (s k o : Buf) (off len : Nat) (opts : MaskOptions),
          k.length = 4 →
          mask env (some B) s k o off len (some opts) =
            _mask s k o off len opts.pad) := by
  have hmask : ∀ (env : Bool) (B : Option MaskBackend) (s k o : Buf)
      (off len : Nat) (opts : MaskOptions),
      env = true ∨ opts.avoidBufferUtils.getD true = true ∨ B = none ∨ len < 48 →
      mask env B s k o off len (some opts) = _mask s k o off len opts.pad := by
    intro env B s k o off len opts h
    rcases opts with ⟨a, p⟩
    rcases h with rfl | h | rfl | h
    · rfl
    · rcases a with _ | b
      · cases env <;> rfl
      · simp only [Option.getD_some] at h
        subst h
        cases env <;> rfl
    · cases env
      · rcases a with _ | b
        · rfl
        · cases b
          · rw [mask_env_false_avoid_false]
            by_cases hl : len < 48
            · rw [if_pos hl]
            · rw [if_neg hl]
          · rfl
      · rfl
    · cases env
      · rcases a with _ | b
        · rfl
        · cases b
          · rw [mask_env_false_avoid_false, if_pos h]
          · rfl
      · rfl
  have hunmask : ∀ (env : Bool) (B : Option UnmaskBackend) (b k : Buf)
      (opts : MaskOptions),
      env = true ∨ opts.avoidBufferUtils.getD true = true ∨ B = none ∨ b.length < 32 →
      unmask env B b k (some opts) = _unmask b k opts.pad := by
    intro env B b k opts h
    rcases opts with ⟨a, p⟩
    rcases h with rfl | h | rfl | h
    · rfl
    · rcases a with _ | c
      · cases env <;> rfl
      · simp only [Option.getD_some] at h
        subst h
        cases env <;> rfl
    · cases env
      · rcases a with _ | c
        · rfl
        · cases c
          · rw [unmask_env_false_avoid_false]
            by_cases hl : b.length < 32
            · rw [if_pos hl]
            · rw [if_neg hl]
          · rfl
      · rfl
    · cases env
      · rcases a with _ | c
        · rfl
        · cases c
          · rw [unmask_env_false_avoid_false, if_pos h]
          · rfl
      · rfl
  refine ⟨hmask, hunmask, ?_, ?_, ?_⟩
  · intro B hB env s k o off len a
    rcases a with _ | b
    · exact hmask env (some B) s k o off len ⟨none, false⟩ (Or.inr (Or.inl rfl))
    · cases b
      · cases env
        · by_cases hl : len < 48
          · exact hmask false (some B) s k o off len ⟨some false, false⟩
              (Or.inr (Or.inr (Or.inr hl)))
          · rw [mask_env_false_avoid_false, if_neg hl]
            exact hB s k o off len
        · exact hmask true (some B) s k o off len ⟨some false, false⟩ (Or.inl rfl)
      · exact hmask env (some B) s k o off len ⟨some true, false⟩
          (Or.inr (Or.inl rfl))
  · intro B hB env b k a
    rcases a with _ | c
    · exact hunmask env (some B) b k ⟨none, false⟩ (Or.inr (Or.inl rfl))
    · cases c
      · cases env
        · by_cases hl : b.length < 32
          · exact hunmask false (some B) b k ⟨some false, false⟩
              (Or.inr (Or.inr (Or.inr hl)))
          · rw [unmask_env_false_avoid_false, if_neg hl]
            exact hB b k
        · exact hunmask true (some B) b k ⟨some false, false⟩ (Or.inl rfl)
      · exact hunmask env (some B) b k ⟨some true, false⟩ (Or.inr (Or.inl rfl))
  · intro B hB env s k o off len opts hk4
    rcases opts with ⟨a, p⟩
    have hpad : _mask s k o off len p = _mask s k o off len false :=
      _mask_pad_irrelevant_of_len_four s k o off len hk4 p
    rcases a with _ | b
    · rw [hmask env (some B) s k o off len ⟨none, p⟩ (Or.inr (Or.inl rfl))]
    · cases b
      · cases env
        · by_cases hl : len < 48
          · exact hmask false (some B) s k o off len ⟨some false, p⟩
              (Or.inr (Or.inr (Or.inr hl)))
          · rw [mask_env_false_avoid_false, if_neg hl]
            exact (hB s k o off len).trans hpad.symm
        · exact hmask true (some B) s k o off len ⟨some false, p⟩ (Or.inl rfl)
      · exact hmask env (some B) s k o off len ⟨some true, p⟩ (Or.inr (Or.inl rfl))

/-- Witness for the amended C6: concrete fallback and agreement instances,
plus a concrete evaluation of the reference loop. -/
theorem mask_fallback_agreement_witness :
    mask true none [1, 2] [3] [0, 0] 0 2 (some ⟨some false, true⟩) =
        _mask [1, 2] [3] [0, 0] 0 2 true ∧
    unmask true none [1, 2] [3] (some ⟨some false, true⟩) =
        _unmask [1, 2] [3] true ∧
    mask false (some (fun s k o off len => _mask s k o off len false))
        (List.replicate 48 1) [7, 7, 7, 7, 9] (List.replicate 48 0) 0 48
        (some ⟨some false, false⟩) =
      _mask (List.replicate 48 1) [7, 7, 7, 7, 9] (List.replicate 48 0) 0 48 false ∧
    _mask [1, 2] [3] [0, 0] 0 2 true = [2, 1] :=
  ⟨mask_fallback_agreement.1 true none [1, 2] [3] [0, 0] 0 2 ⟨some false, true⟩
      (Or.inl rfl),
   mask_fallback_agreement.2.1 true none [1, 2] [3] ⟨some false, true⟩ (Or.inl rfl),
   mask_fallback_agreement.2.2.1 (fun s k o off len => _mask s k o off len false)
      (fun _ _ _ _ _ => rfl) false (List.replicate 48 1) [7, 7, 7, 7, 9]
      (List.replicate 48 0) 0 48 (some false),
   by decide⟩

/-! ### Binary I/O primitives (`src/fs/binary.ts`)

`writeBinaryStream` iterates the chunk sequence; each chunk is coerced to a
buffer, masked (when a mask is given) into a freshly allocated zeroed output
with `{ avoidBufferUtils: true, pad: true }` — so the key index restarts at
`0` for every chunk — appended to the destination file, and its byte length
added to the `writtenBytes` accumulator, which is the resolved value. -/

/-- The chunk-consuming loop of `writeBinaryStream`, returning the bytes
written to the file and the `writtenBytes` counter the promise resolves
with. -/
def writeBinaryStreamChunks (env : Bool) (B : Option MaskBackend)
    (chunks : List Buf) (maskKey : Option Buf) : Buf × Nat :=
  chunks.foldl
    (fun acc chunk =>
      let buffer :=
        match maskKey with
        | some key =>
            mask env B chunk key (List.replicate chunk.length 0) 0 chunk.length
              (some ⟨some true, true⟩)
        | none => chunk
      (acc.1 ++ buffer, acc.2 + buffer.length))
    ([], 0)

/-- The reference loop applied to a chunk from index `0` into a fresh
zeroed output equals the padded XOR of the chunk with the key, index
starting at `0`. -/
theorem _mask_fresh_eq_map (c k : Buf)
    (hc : ∀ x ∈ c, x < 256) (hk : ∀ x ∈ k, x < 256) :
    _mask c k (List.replicate c.length 0) 0 c.length true =
      (List.range c.length).map
        (fun i => c.getD i 0 ^^^ k.getD (i % k.length) 0) := by
  refine list_eq_of_getD _ _ ?_ ?_
  · rw [_mask_length]
    simp
  · intro j hj
    have hj' : j < c.length := by simpa using hj
    rw [_mask_getD, if_pos (show 0 ≤ j ∧ j < 0 + c.length ∧
      j < (List.replicate c.length (0 : Nat)).length by simpa using hj')]
    have hsub : j - 0 = j := by omega
    rw [hsub, Nat.mod_eq_of_lt
      (xor_lt_256 (jsRead_lt_256 c hc j) (maskKeyByte_lt_256 k hk true j))]
    rw [List.getD_eq_getElem?_getD, List.getElem?_map, List.getElem?_range hj']
    rfl

theorem foldl_chunks_spec (f : Buf → Buf) :
    ∀ (chunks : List Buf) (acc : Buf × Nat),
      (chunks.foldl (fun acc c => (acc.1 ++ f c, acc.2 + (f c).length)) acc).1 =
        acc.1 ++ (chunks.map f).flatten ∧
      (chunks.foldl (fun acc c => (acc.1 ++ f c, acc.2 + (f c).length)) acc).2 =
        acc.2 + ((chunks.map f).map List.length).sum := by
  intro chunks
  induction chunks with
  | nil => intro acc; simp
  | cons c t ih =>
    intro acc
    rw [List.foldl_cons]
    have h := ih (acc.1 ++ f c, acc.2 + (f c).length)
    constructor
    · rw [h.1]
      simp [List.append_assoc]
    · rw [h.2]
      simp
      omega

/-- C7: when `writeBinaryStream` consumes a chunk sequence with a padded
mask, each chunk is masked independently — the key index restarts at `0`
for every chunk — the bytes written to the file are the concatenation of
the per-chunk maskings, and the resolved value is exactly the total number
of bytes written. -/
theorem writeBinaryStream_per_chunk_masking (env : Bool) (B : Option MaskBackend)
    (chunks : List Buf) (key : Buf)
    (hc : ∀ c ∈ chunks, ∀ x ∈ c, x < 256) (hk : ∀ x ∈ key, x < 256) :
    (writeBinaryStreamChunks env B chunks (some key)).1 =
      (chunks.map (fun c => (List.range c.length).map
        (fun i => c.getD i 0 ^^^ key.getD (i % key.length) 0))).flatten ∧
    (writeBinaryStreamChunks env B chunks (some key)).2 =
      (writeBinaryStreamChunks env B chunks (some key)).1.length ∧
    (writeBinaryStreamChunks env B chunks (some key)).2 =
      (chunks.map List.length).sum := by
  have hfold := foldl_chunks_spec
    (fun c => mask env B c key (List.replicate c.length 0) 0 c.length
      (some ⟨some true, true⟩)) chunks ([], 0)
  have hbody : writeBinaryStreamChunks env B chunks (some key) =
      chunks.foldl
        (fun acc c =>
          (acc.1 ++ mask env B c key (List.replicate c.length 0) 0 c.length
              (some ⟨some true, true⟩),
           acc.2 + (mask env B c key (List.replicate c.length 0) 0 c.length
              (some ⟨some true, true⟩)).length)) ([], 0) := rfl
  have hmap : chunks.map
      (fun c => mask env B c key (List.replicate c.length 0) 0 c.length
        (some ⟨some true, true⟩)) =
      chunks.map (fun c => (List.range c.length).map
        (fun i => c.getD i 0 ^^^ key.getD (i % key.length) 0)) := by
    refine List.map_congr_left ?_
    intro c hcin
    rw [mask_avoid_true, _mask_fresh_eq_map c key (hc c hcin) hk]
  refine ⟨?_, ?_, ?_⟩
  · rw [hbody, hfold.1, hmap]
    simp
  · rw [hbody, hfold.1, hfold.2]
    simp [List.length_flatten]
  · rw [hbody, hfold.2, hmap]
    have : ∀ (L : List Buf),
        ((L.map (fun c => (List.range c.length).map
          (fun i => c.getD i 0 ^^^ key.getD (i % key.length) 0))).map List.length)
          = L.map List.length := by
      intro L
      rw [List.map_map]
      refine List.map_congr_left ?_
      intro c _
      simp
    rw [this]
    simp

/-- Witness for C7: two chunks `[1,2]` and `[3]` with key `[9,9]` are
masked independently (`[8,11]` and `[10]`), written as `[8,11,10]`, and
the call resolves with `3` bytes. -/
theorem writeBinaryStream_per_chunk_masking_witness :
    writeBinaryStreamChunks false none [[1, 2], [3]] (some [9, 9]) =
        ([8, 11, 10], 3) ∧
    ((writeBinaryStreamChunks false none [[1, 2], [3]] (some [9, 9])).1 =
      ([[1, 2], [3]].map (fun c => (List.range c.length).map
        (fun i => c.getD i 0 ^^^ ([9, 9] : Buf).getD (i % ([9, 9] : Buf).length) 0))).flatten ∧
    (writeBinaryStreamChunks false none [[1, 2], [3]] (some [9, 9])).2 =
      (writeBinaryStreamChunks false none [[1, 2], [3]] (some [9, 9])).1.length ∧
    (writeBinaryStreamChunks false none [[1, 2], [3]] (some [9, 9])).2 =
      ([[1, 2], [3]].map List.length).sum) :=
  ⟨by decide,
   writeBinaryStream_per_chunk_masking false none [[1, 2], [3]] [9, 9]
     (by decide) (by decide)⟩

/-! ### Error taxonomy and filesystem model

Error codes from `src/errors`: `ERR_BUFFER_OVERFLOW`, `ERR_RESOURCE_NOT_FOUND`,
`ERR_TOKEN_CANCELED`, `ERR_INVALID_ARGUMENT`, `ERR_UNSUPPORTED_OPERATION`,
`ERR_HTTP_FAILURE`; `ioFailure` stands for an underlying filesystem error
passed through unmodified (e.g. `ENOENT`).  The managed directory's on-disk
content is modelled as a flat association list from filename to byte
content; failed filesystem writes are modelled as atomic (they leave no
partial content), matching the spec's "as if the failing operation never
started" stance for buffered paths. -/

inductive Err
  | bufferOverflow
  | resourceNotFound
  | tokenCanceled
  | invalidArgument
  | unsupportedOperation
  | httpFailure
  | ioFailure
deriving DecidableEq, Repr

/-- Flat file table of the managed directory: filename ↦ byte content. -/
abbrev FS := List (String × Buf)

def fsGet : FS → String → Option Buf
  | [], _ => none
  | (k, v) :: rest, n => if k = n then some v else fsGet rest n

def fsSet : FS → String → Buf → FS
  | [], n, v => [(n, v)]
  | (k, w) :: rest, n, v =>
      if k = n then (k, v) :: rest else (k, w) :: fsSet rest n v

def fsRemove : FS → String → FS
  | [], _ => []
  | (k, w) :: rest, n =>
      if k = n then fsRemove rest n else (k, w) :: fsRemove rest n

theorem fsGet_fsSet_self (fs : FS) (n : String) (v : Buf) :
    fsGet (fsSet fs n v) n = some v := by
  induction fs with
  | nil => simp [fsSet, fsGet]
  | cons p rest ih =>
    obtain ⟨k, w⟩ := p
    by_cases h : k = n
    · simp [fsSet, fsGet, h]
    · simp [fsSet, fsGet, h, ih]

theorem fsGet_fsRemove_self (fs : FS) (n : String) :
    fsGet (fsRemove fs n) n = none := by
  induction fs with
  | nil => simp [fsRemove, fsGet]
  | cons p rest ih =>
    obtain ⟨k, w⟩ := p
    by_cases h : k = n
    · simp [fsRemove, h, ih]
    · simp [fsRemove, fsGet, h, ih]

structure TempState where
  maxSize : Int
  sizeof : Int
  disposed : Bool
deriving DecidableEq, Repr

structure TemporaryDirectory where
  state : TempState
  files : FS
  subdirs : List String
  dirExists : Bool
deriving DecidableEq, Repr

/-- `TemporaryDirectory.create`: `ensureDir` the pathname, `stat` it, and
construct the instance.  The private constructor seeds the ledger with the
directory's own `stat.size` (`dirStatSize` — nonzero on common
filesystems: 4096 on ext4, ~64 on APFS) and resolves the quota as
`_msize || 4 GiB`, so a falsy (absent or zero) `maxSize` falls back to the
4 GiB default. -/
def TemporaryDirectory.create (dirStatSize : Int) (maxSize : Option Int) :
    TemporaryDirectory :=
  let msize : Int :=
    match maxSize with
    | none => 4 * 1024 * 1024 * 1024
    | some m => if m = 0 then 4 * 1024 * 1024 * 1024 else m
  ⟨⟨msize, dirStatSize, false⟩, [], [], true⟩

/-- An idealized fresh `TemporaryDirectory`: `create` over a directory
whose `stat.size` reports `0`.  Real directories report a nonzero
`stat.size` (see `TemporaryDirectory.create`); this state is used to build
concrete witness states whose judged conclusions do not depend on the
seed. -/
def freshTemp (maxSize : Int) : TemporaryDirectory :=
  TemporaryDirectory.create 0 (some maxSize)

/-- `TemporaryDirectory.write`: coerce, check `sizeof + n > maxSize`
before any I/O, then `fs.promises.writeFile` (replacing the file) and
`sizeof += n`. -/
def TemporaryDirectory.write (t : TemporaryDirectory) (filename : String)
    (contents : Buf) (ioErr : Option Err) : TemporaryDirectory × Option Err :=
  let buffer := contents
  if t.state.sizeof + (buffer.length : Int) > t.state.maxSize then
    (t, some .bufferOverflow)
  else
    match ioErr with
    | some e => (t, some e)
    | none =>
        ({ t with files := fsSet t.files filename buffer,
                  state := { t.state with
                    sizeof := t.state.sizeof + (buffer.length : Int) } }, none)

/-- `TemporaryDirectory.writeSync`: same admission logic with
`fs.writeFileSync`. -/
def TemporaryDirectory.writeSync (t : TemporaryDirectory) (filename : String)
    (contents : Buf) (ioErr : Option Err) : TemporaryDirectory × Option Err :=
  let buffer := contents
  if t.state.sizeof + (buffer.length : Int) > t.state.maxSize then
    (t, some .bufferOverflow)
  else
    match ioErr with
    | some e => (t, some e)
    | none =>
        ({ t with files := fsSet t.files filename buffer,
                  state := { t.state with
                    sizeof := t.state.sizeof + (buffer.length : Int) } }, none)

/-- `TemporaryDirectory.append`: same admission check, then
`fs.promises.appendFile` (creates the file when absent). -/
def TemporaryDirectory.append (t : TemporaryDirectory) (filename : String)
    (contents : Buf) (ioErr : Option Err) : TemporaryDirectory × Option Err :=
  let buffer := contents
  if t.state.sizeof + (buffer.length : Int) > t.state.maxSize then
    (t, some .bufferOverflow)
  else
    match ioErr with
    | some e => (t, some e)
    | none =>
        ({ t with files := fsSet t.files filename
                    ((fsGet t.files filename).getD [] ++ buffer),
                  state := { t.state with
                    sizeof := t.state.sizeof + (buffer.length : Int) } }, none)

/-- `TemporaryDirectory.appendSync`. -/
def TemporaryDirectory.appendSync (t : TemporaryDirectory) (filename : String)
    (contents : Buf) (ioErr : Option Err) : TemporaryDirectory × Option Err :=
  let buffer := contents
  if t.state.sizeof + (buffer.length : Int) > t.state.maxSize then
    (t, some .bufferOverflow)
  else
    match ioErr with
    | some e => (t, some e)
    | none =>
        ({ t with files := fsSet t.files filename
                    ((fsGet t.files filename).getD [] ++ buffer),
                  state := { t.state with
                    sizeof := t.state.sizeof + (buffer.length : Int) } }, none)

/-- The bytes `fsbin.writeBinary` puts on disk: the content masked into a
fresh zeroed output with `{ avoidBufferUtils: true, pad: true }` when a
mask is given, the content itself otherwise. -/
def fsbinWriteBinaryContent (env : Bool) (B : Option MaskBackend)
    (contents : Buf) (maskKey : Option Buf) : Buf :=
  match maskKey with
  | some key =>
      mask env B contents key (List.replicate contents.length 0) 0
        contents.length (some ⟨some true, true⟩)
  | none => contents

/-- `TemporaryDirectory.writeBinary`: coerce, check the quota before any
I/O, delegate to `fsbin.writeBinary` (which pre-checks the token, throwing
`ERR_TOKEN_CANCELED`, then masks and writes), and add
`chunkToBuffer(contents).byteLength` to the ledger.  The `catch` unlinks
the file only when the error is `ERR_TOKEN_CANCELED` and
`options.removeOnError` is set, then rethrows. -/
def TemporaryDirectory.writeBinary (env : Bool) (B : Option MaskBackend)
    (t : TemporaryDirectory) (filename : String) (contents : Buf)
    (maskKey : Option Buf) (tokenCancelled : Bool) (removeOnError : Bool)
    (ioErr : Option Err) : TemporaryDirectory × Option Err :=
  let buffer := contents
  if t.state.sizeof + (buffer.length : Int) > t.state.maxSize then
    (t, some .bufferOverflow)
  else if tokenCancelled then
    (if removeOnError then { t with files := fsRemove t.files filename } else t,
     some .tokenCanceled)
  else
    match ioErr with
    | some e => (t, some e)
    | none =>
        ({ t with files := fsSet t.files filename
                    (fsbinWriteBinaryContent env B contents maskKey),
                  state := { t.state with
                    sizeof := t.state.sizeof + (buffer.length : Int) } }, none)

/-- `TemporaryDirectory.writeBinarySync` (no token argument). -/
def TemporaryDirectory.writeBinarySync (env : Bool) (B : Option MaskBackend)
    (t : TemporaryDirectory) (filename : String) (contents : Buf)
    (maskKey : Option Buf) (ioErr : Option Err) : TemporaryDirectory × Option Err :=
  let buffer := contents
  if t.state.sizeof + (buffer.length : Int) > t.state.maxSize then
    (t, some .bufferOverflow)
  else
    match ioErr with
    | some e => (t, some e)
    | none =>
        ({ t with files := fsSet t.files filename
                    (fsbinWriteBinaryContent env B contents maskKey),
                  state := { t.state with
                    sizeof := t.state.sizeof + (buffer.length : Int) } }, none)

/-- `TemporaryDirectory.writeBinaryStream`: let the stream complete
(`streamErr` is the stream's outcome; `none` = completed), then check
`sizeof + writtenBytes > maxSize` — on overflow `rimraf` the just-written
file and throw `ERR_BUFFER_OVERFLOW` without touching `sizeof`; otherwise
`sizeof += writtenBytes`.  The `catch` handler unlinks only on
`ERR_TOKEN_CANCELED` with `removeOnError`. -/
def TemporaryDirectory.writeBinaryStream (env : Bool) (B : Option MaskBackend)
    (t : TemporaryDirectory) (filename : String) (chunks : List Buf)
    (maskKey : Option Buf) (streamErr : Option Err) (removeOnError : Bool) :
    TemporaryDirectory × Option Err :=
  match streamErr with
  | some e =>
      (if e = Err.tokenCanceled ∧ removeOnError = true then
        { t with files := fsRemove t.files filename }
      else t, some e)
  | none =>
      let r := writeBinaryStreamChunks env B chunks maskKey
      if t.state.sizeof + (r.2 : Int) > t.state.maxSize then
        ({ t with files := fsRemove (fsSet t.files filename r.1) filename },
         some .bufferOverflow)
      else
        ({ t with files := fsSet t.files filename r.1,
                  state := { t.state with
                    sizeof := t.state.sizeof + (r.2 : Int) } }, none)

/-- `TemporaryDirectory.rename`: `fs.promises.rename`, which fails on a
missing source and otherwise moves the entry; the ledger is not touched. -/
def TemporaryDirectory.rename (t : TemporaryDirectory)
    (oldName newName : String) : TemporaryDirectory × Option Err :=
  match fsGet t.files oldName with
  | none => (t, some .ioFailure)
  | some content =>
      ({ t with files := fsSet (fsRemove t.files oldName) newName content }, none)

/-- `TemporaryDirectory.copy`: `fs.promises.copyFile`; the ledger is not
touched. -/
def TemporaryDirectory.copy (t : TemporaryDirectory)
    (source destination : String) : TemporaryDirectory × Option Err :=
  match fsGet t.files source with
  | none => (t, some .ioFailure)
  | some content =>
      ({ t with files := fsSet t.files destination content }, none)

/-- `TemporaryDirectory.createSubdirectory`: `ensureDir` on the joined
path — a recursive `mkdir` that recreates the managed directory itself
when it is missing and always succeeds on a missing path. -/
def TemporaryDirectory.createSubdirectory (t : TemporaryDirectory)
    (name : String) : TemporaryDirectory × Option Err :=
  ({ t with dirExists := true,
            subdirs := if name ∈ t.subdirs then t.subdirs else name :: t.subdirs },
   none)

/-- `TemporaryDirectory.dispose`: early-return when already disposed;
otherwise cancel the internal source, `rimrafSync` the whole tree, zero the
ledger and mark the state disposed. -/
def TemporaryDirectory.dispose (t : TemporaryDirectory) : TemporaryDirectory :=
  if t.state.disposed then t
  else
    { t with files := [], subdirs := [], dirExists := false,
             state := { t.state with sizeof := 0, disposed := true } }

/-- C1: for every buffered write on a `TemporaryDirectory` (`write`,
`writeSync`, `append`, `appendSync`, `writeBinary`, `writeBinarySync`)
whose content coerces to `n` bytes: if `sizeof + n > maxSize` the operation
fails with `ERR_BUFFER_OVERFLOW`, performs no filesystem I/O and leaves the
whole state (in particular `sizeof`) unchanged, whatever the I/O oracle or
token; if `sizeof + n ≤ maxSize` and the underlying filesystem write
succeeds, the operation succeeds and `sizeof` increases by exactly `n`. -/
theorem buffered_write_admission (env : Bool) (B : Option MaskBackend)
    (t : TemporaryDirectory) (filename : String) (contents : Buf)
    (maskKey : Option Buf) :
    (t.state.sizeof + (contents.length : Int) > t.state.maxSize →
      (∀ ioErr, t.write filename contents ioErr = (t, some Err.bufferOverflow)) ∧
      (∀ ioErr, t.writeSync filename contents ioErr = (t, some Err.bufferOverflow)) ∧
      (∀ ioErr, t.append filename contents ioErr = (t, some Err.bufferOverflow)) ∧
      (∀ ioErr, t.appendSync filename contents ioErr = (t, some Err.bufferOverflow)) ∧
      (∀ tc ro ioErr, TemporaryDirectory.writeBinary env B t filename contents
          maskKey tc ro ioErr = (t, some Err.bufferOverflow)) ∧
      (∀ ioErr, TemporaryDirectory.writeBinarySync env B t filename contents
          maskKey ioErr = (t, some Err.bufferOverflow))) ∧
    (t.state.sizeof + (contents.length : Int) ≤ t.state.maxSize →
      ((t.write filename contents none).2 = none ∧
        (t.write filename contents none).1.state.sizeof =
          t.state.sizeof + (contents.length : Int)) ∧
      ((t.writeSync filename contents none).2 = none ∧
        (t.writeSync filename contents none).1.state.sizeof =
          t.state.sizeof + (contents.length : Int)) ∧
      ((t.append filename contents none).2 = none ∧
        (t.append filename contents none).1.state.sizeof =
          t.state.sizeof + (contents.length : Int)) ∧
      ((t.appendSync filename contents none).2 = none ∧
        (t.appendSync filename contents none).1.state.sizeof =
          t.state.sizeof + (contents.length : Int)) ∧
      (∀ ro, (TemporaryDirectory.writeBinary env B t filename contents maskKey
            false ro none).2 = none ∧
        (TemporaryDirectory.writeBinary env B t filename contents maskKey
            false ro none).1.state.sizeof =
          t.state.sizeof + (contents.length : Int)) ∧
      ((TemporaryDirectory.writeBinarySync env B t filename contents maskKey
            none).2 = none ∧
        (TemporaryDirectory.writeBinarySync env B t filename contents maskKey
            none).1.state.sizeof =
          t.state.sizeof + (contents.length : Int))) := by
  constructor
  · intro h
    refine ⟨?_, ?_, ?_, ?_, ?_, ?_⟩
    · intro ioErr
      simp only [TemporaryDirectory.write, if_pos h]
    · intro ioErr
      simp only [TemporaryDirectory.writeSync, if_pos h]
    · intro ioErr
      simp only [TemporaryDirectory.append, if_pos h]
    · intro ioErr
      simp only [TemporaryDirectory.appendSync, if_pos h]
    · intro tc ro ioErr
      simp only [TemporaryDirectory.writeBinary, if_pos h]
    · intro ioErr
      simp only [TemporaryDirectory.writeBinarySync, if_pos h]
  · intro h
    have h2 : ¬ (t.state.sizeof + (contents.length : Int) > t.state.maxSize) := by
      omega
    refine ⟨?_, ?_, ?_, ?_, ?_, ?_⟩
    · simp only [TemporaryDirectory.write, if_neg h2]
      refine ⟨?_, ?_⟩ <;> trivial
    · simp only [TemporaryDirectory.writeSync, if_neg h2]
      refine ⟨?_, ?_⟩ <;> trivial
    · simp only [TemporaryDirectory.append, if_neg h2]
      refine ⟨?_, ?_⟩ <;> trivial
    · simp only [TemporaryDirectory.appendSync, if_neg h2]
      refine ⟨?_, ?_⟩ <;> trivial
    · intro ro
      simp only [TemporaryDirectory.writeBinary, if_neg h2]
      refine ⟨?_, ?_⟩ <;> trivial
    · simp only [TemporaryDirectory.writeBinarySync, if_neg h2]
      refine ⟨?_, ?_⟩ <;> trivial

/-- Witness for C1: the spec scenario — a store with `maxSize = 10`;
`write("a", 5 bytes)` succeeds with `sizeof = 5`; then `write("b", 6
bytes)` fails with `ERR_BUFFER_OVERFLOW` (5 + 6 > 10) and leaves the state
unchanged. -/
theorem buffered_write_admission_witness :
    ((freshTemp 10).write "a" [1, 1, 1, 1, 1] none).2 = none ∧
    ((freshTemp 10).write "a" [1, 1, 1, 1, 1] none).1.state.sizeof = 5 ∧
    ((freshTemp 10).write "a" [1, 1, 1, 1, 1] none).1.write "b"
        [2, 2, 2, 2, 2, 2] none =
      (((freshTemp 10).write "a" [1, 1, 1, 1, 1] none).1,
        some Err.bufferOverflow) :=
  ⟨by decide, by decide,
   ((buffered_write_admission false none
      ((freshTemp 10).write "a" [1, 1, 1, 1, 1] none).1 "b" [2, 2, 2, 2, 2, 2]
      none).1 (by decide)).1 none⟩

/-- C2: for every `writeBinaryStream` call whose chunk sequence completes
having written `n` bytes in total, the bound is checked only after the
stream completes: if `sizeof + n > maxSize` the just-written file is
deleted and the call rejects with `ERR_BUFFER_OVERFLOW` leaving `sizeof`
unchanged; otherwise the call succeeds, the file holds the streamed bytes
and `sizeof` increases by exactly `n`. -/
theorem writeBinaryStream_postcheck (env : Bool) (B : Option MaskBackend)
    (t : TemporaryDirectory) (filename : String) (chunks : List Buf)
    (maskKey : Option Buf) (removeOnError : Bool) :
    (t.state.sizeof + ((writeBinaryStreamChunks env B chunks maskKey).2 : Int) >
        t.state.maxSize →
      (TemporaryDirectory.writeBinaryStream env B t filename chunks maskKey
          none removeOnError).2 = some Err.bufferOverflow ∧
      fsGet (TemporaryDirectory.writeBinaryStream env B t filename chunks maskKey
          none removeOnError).1.files filename = none ∧
      (TemporaryDirectory.writeBinaryStream env B t filename chunks maskKey
          none removeOnError).1.state.sizeof = t.state.sizeof) ∧
    (t.state.sizeof + ((writeBinaryStreamChunks env B chunks maskKey).2 : Int) ≤
        t.state.maxSize →
      (TemporaryDirectory.writeBinaryStream env B t filename chunks maskKey
          none removeOnError).2 = none ∧
      fsGet (TemporaryDirectory.writeBinaryStream env B t filename chunks maskKey
          none removeOnError).1.files filename =
        some (writeBinaryStreamChunks env B chunks maskKey).1 ∧
      (TemporaryDirectory.writeBinaryStream env B t filename chunks maskKey
          none removeOnError).1.state.sizeof =
        t.state.sizeof + ((writeBinaryStreamChunks env B chunks maskKey).2 : Int)) := by
  constructor
  · intro h
    simp only [TemporaryDirectory.writeBinaryStream, if_pos h]
    refine ⟨?_, ?_, ?_⟩
    · trivial
    · exact fsGet_fsRemove_self _ _
    · trivial
  · intro h
    have h2 : ¬ (t.state.sizeof +
        ((writeBinaryStreamChunks env B chunks maskKey).2 : Int) >
        t.state.maxSize) := by omega
    simp only [TemporaryDirectory.writeBinaryStream, if_neg h2]
    refine ⟨?_, ?_, ?_⟩
    · trivial
    · exact fsGet_fsSet_self _ _ _
    · trivial

/-- Witness for C2: the spec scenario — a single 11-byte chunk streamed
into a store with `maxSize = 10` completes, is detected as overflowing,
the file is deleted, the call rejects with `ERR_BUFFER_OVERFLOW`, and
`sizeof` stays `0`. -/
theorem writeBinaryStream_postcheck_witness :
    (TemporaryDirectory.writeBinaryStream false none (freshTemp 10) "f"
        [[7, 7, 7, 7, 7, 7, 7, 7, 7, 7, 7]] none none false).2 =
      some Err.bufferOverflow ∧
    fsGet (TemporaryDirectory.writeBinaryStream false none (freshTemp 10) "f"
        [[7, 7, 7, 7, 7, 7, 7, 7, 7, 7, 7]] none none false).1.files "f" = none ∧
    (TemporaryDirectory.writeBinaryStream false none (freshTemp 10) "f"
        [[7, 7, 7, 7, 7, 7, 7, 7, 7, 7, 7]] none none false).1.state.sizeof =
      (freshTemp 10).state.sizeof :=
  (writeBinaryStream_postcheck false none (freshTemp 10) "f"
    [[7, 7, 7, 7, 7, 7, 7, 7, 7, 7, 7]] none false).1 (by decide)

/-! ### C3: the ledger invariant under arbitrary settled buffered operations -/

/-- C8 (code evidence): `dispose()` is idempotent — a second call
early-returns on the `disposed` flag — but `disposed = true` is not
terminal in the code: no mutating method checks the flag, and
`createSubdirectory` on a disposed instance succeeds (`ensureDir` is a
recursive `mkdir` that recreates the removed tree), mutating the on-disk
state.  Evaluated at the concrete failing input: a fresh store with
`maxSize = 10`, disposed, then `createSubdirectory("sub")`. -/
theorem dispose_idempotent_but_not_terminal :
    TemporaryDirectory.dispose (TemporaryDirectory.dispose (freshTemp 10)) =
      TemporaryDirectory.dispose (freshTemp 10) ∧
    (TemporaryDirectory.dispose (freshTemp 10)).state.disposed = true ∧
    (TemporaryDirectory.dispose (freshTemp 10)).dirExists = false ∧
    ((TemporaryDirectory.dispose (freshTemp 10)).createSubdirectory "sub").2 =
      none ∧
    ((TemporaryDirectory.dispose (freshTemp 10)).createSubdirectory
        "sub").1.dirExists = true ∧
    ((TemporaryDirectory.dispose (freshTemp 10)).createSubdirectory
        "sub").1.subdirs = ["sub"] := by
  decide

/-! ### Download orchestrator (`DownloadService`) -/

structure DLService where
  sourceIsFile : Bool
  sourcePath : String
  destination : String
deriving DecidableEq, Repr

/-- The `DownloadService` constructor: the typed overloads guarantee a
destination; a supplied options token that is already cancelled makes the
constructor throw `ERR_TOKEN_CANCELED` before any I/O or internal state is
created. -/
def DownloadService.construct (sourceIsFile : Bool)
    (sourcePath destination : String) (tokenCancelled : Bool) :
    Except Err DLService :=
  if tokenCancelled then .error .tokenCanceled
  else .ok ⟨sourceIsFile, sourcePath, destination⟩

/-- `DownloadService.#downloadFromFile`: guards the transport
(`ERR_UNSUPPORTED_OPERATION` for non-`file:` sources), pre-checks an
override token — already cancelled rejects with `ERR_TOKEN_CANCELED`
before touching the filesystem — then stats the source, stream-copies it
into the destination and resolves with the copied bytes. -/
def DownloadService.downloadFromFile (svc : DLService)
    (overrideTokenCancelled : Option Bool) (fs : FS) : Except Err Buf × FS :=
  if svc.sourceIsFile = false then (.error .unsupportedOperation, fs)
  else
    match overrideTokenCancelled with
    | some true => (.error .tokenCanceled, fs)
    | _ =>
        match fsGet fs svc.sourcePath with
        | none => (.error .ioFailure, fs)
        | some bytes => (.ok bytes, fsSet fs svc.destination bytes)

/-- `DownloadService.download`: `file:` sources route to
`#downloadFromFile`; the network path likewise pre-checks an override
token before issuing the GET request (`netResult` stands for the outcome
of the network transfer, only reached when not pre-cancelled). -/
def DownloadService.download (svc : DLService)
    (overrideTokenCancelled : Option Bool) (netResult : Except Err Buf × FS)
    (fs : FS) : Except Err Buf × FS :=
  if svc.sourceIsFile then
    DownloadService.downloadFromFile svc overrideTokenCancelled fs
  else
    match overrideTokenCancelled with
    | some true => (.error .tokenCanceled, fs)
    | _ => netResult

/-- C9: a token that is already cancelled when supplied — at construction
or to a `download()` call — fails the operation immediately with
`ERR_TOKEN_CANCELED` before any I/O: the constructor throws, and
`download` / `#downloadFromFile` reject leaving the filesystem untouched —
in particular a `file:` download with a pre-cancelled token creates no
destination file. -/
theorem precancelled_token_fails_fast :
    (∀ (isFile : Bool) (src dest : String),
        DownloadService.construct isFile src dest true =
          .error .tokenCanceled) ∧
    (∀ (svc : DLService) (net : Except Err Buf × FS) (fs : FS),
        DownloadService.download svc (some true) net fs =
          (.error .tokenCanceled, fs)) ∧
    (∀ (src dest : String) (fs : FS),
        DownloadService.downloadFromFile ⟨true, src, dest⟩ (some true) fs =
          (.error .tokenCanceled, fs)) := by
  refine ⟨fun isFile src dest => rfl, ?_, fun src dest fs => rfl⟩
  intro svc net fs
  obtain ⟨sif, sp, d⟩ := svc
  cases sif
  · rfl
  · rfl

/-- C10: `copy` and `rename` never change the `sizeof` ledger; copying an
existing file duplicates its bytes on disk (the destination ends up with
the source's content) without any charge against the quota. -/
theorem rename_copy_ledger_frame :
    (∀ (t : TemporaryDirectory) (a b : String),
        (t.rename a b).1.state.sizeof = t.state.sizeof) ∧
    (∀ (t : TemporaryDirectory) (a b : String),
        (t.copy a b).1.state.sizeof = t.state.sizeof) ∧
    (∀ (t : TemporaryDirectory) (a b : String) (content : Buf),
        fsGet t.files a = some content →
          fsGet (t.copy a b).1.files b = some content) := by
  refine ⟨?_, ?_, ?_⟩
  · intro t a b
    cases h : fsGet t.files a with
    | none => simp only [TemporaryDirectory.rename, h]
    | some content => simp only [TemporaryDirectory.rename, h]
  · intro t a b
    cases h : fsGet t.files a with
    | none => simp only [TemporaryDirectory.copy, h]
    | some content => simp only [TemporaryDirectory.copy, h]
  · intro t a b content h
    simp only [TemporaryDirectory.copy, h]
    exact fsGet_fsSet_self t.files b content

/-- Witness for C10: copying `"a"` (2 bytes) to `"b"` in a store holding
only `"a"` leaves `sizeof` at `2` and duplicates the content. -/
theorem rename_copy_ledger_frame_witness :
    (((freshTemp 10).write "a" [5, 5] none).1.copy "a" "b").1.state.sizeof = 2 ∧
    fsGet (((freshTemp 10).write "a" [5, 5] none).1.copy "a" "b").1.files "b" =
      some [5, 5] :=
  ⟨by decide,
   rename_copy_ledger_frame.2.2 ((freshTemp 10).write "a" [5, 5] none).1 "a" "b"
     [5, 5] (by decide)⟩

end NodeStd
